import Mathlib

/-!
Shallow embedding of the pTLS repository (crate ptls) in Lean 4, covering
the record framing layer (src/ptls/src/io_wrapper), the block-chunked RSA
codec (src/ptls/src/crypto) and the tunnel peer-key installation and
handshake paths (src/ptls/src/tunnel).

Bytes are modelled as Nat, byte streams as List Nat.  RSA primitives are
modelled abstractly: a single-block OAEP operation is a parameter of the
chunking functions, constrained only by the properties the rsa crate
guarantees (each ciphertext block has exactly the key size in bytes, and
decryption inverts encryption).
-/

namespace Ptls

/-! ## Record framer: src/ptls/src/sub_protocol/mod.rs, payload.rs, io_wrapper -/

/-- Rust enum ContentType (src/ptls/src/sub_protocol/mod.rs lines 26-58):
ClientHello = 0, Handshake = 1, ApplicationData = 2, Alert = 3. -/
inductive ContentType
  | ClientHello
  | Handshake
  | ApplicationData
  | Alert
deriving DecidableEq, Repr

/-- The discriminant of the ContentType variant, i.e. the value of
content_type as u8 written by IoWrapper::send. -/
def ContentType.toByte : ContentType → Nat
  | .ClientHello => 0
  | .Handshake => 1
  | .ApplicationData => 2
  | .Alert => 3

/-- TryFrom u8 for ContentType (src/ptls/src/sub_protocol/mod.rs lines
60-72): 0, 1, 2, 3 map to the four variants, anything else is an error
(modelled as none). -/
def ContentType.tryFrom : Nat → Option ContentType
  | 0 => some .ClientHello
  | 1 => some .Handshake
  | 2 => some .ApplicationData
  | 3 => some .Alert
  | _ => none

/-- Modelled from the spec: the constant PTLS_VERSION referenced by
io_wrapper/send.rs and io_wrapper/receive.rs is declared in the crate
root, which is absent from src/ (the checked-in lib.rs belongs to an
older iteration of the crate).  The spec fixes the current version to 0
(record header field version "currently 0, reserved"), and the in-src
receive tests only accept frames whose first two bytes are 0x00 0x00. -/
def PTLS_VERSION : Nat := 0

/-- Rust value std::mem::size_of::<Header>() for
struct Header { version: u16, content_type: ContentType, length: u16 }
(src/ptls/src/payload.rs lines 8-13).  ContentType is a fieldless enum,
so it occupies one byte with alignment 1; the struct's fields occupy
2 + 1 + 2 = 5 bytes and its alignment is 2 (the alignment of u16), so
Rust pads the struct size to the next multiple of 2, giving 6. -/
def sizeOfHeader : Nat := 6

/-- MAX_PAYLOAD_LENGTH (src/ptls/src/payload.rs line 4):
u16::MAX - size_of::<Header>() + 1 = 65535 - 6 + 1 = 65530. -/
def MAX_PAYLOAD_LENGTH : Nat := 65535 - sizeOfHeader + 1

/-- Error enum IoWrapperError (src/ptls/src/io_wrapper/error.rs).  The
Io variant abstracts the wrapped std::io::Error. -/
inductive IoWrapperError
  | Io
  | UnknownContentType (contentType : Nat)
  | NoPayload
  | MessageTooLong (length : Nat)
  | InappropriateVersion (version : Nat)
deriving DecidableEq, Repr

/-- Big-endian byte pair written by tokio write_u16 for a u16 value. -/
def writeU16 (n : Nat) : List Nat := [n / 256 % 256, n % 256]

/-- Reading a big-endian u16 from the stream (tokio read_u16); none models
the Io error raised when the stream is exhausted. -/
def readU16 : List Nat → Option (Nat × List Nat)
  | b0 :: b1 :: rest => some (b0 * 256 + b1, rest)
  | _ => none

/-- Reading one byte from the stream (tokio read_u8). -/
def readU8 : List Nat → Option (Nat × List Nat)
  | b :: rest => some (b, rest)
  | _ => none

namespace IoWrapper

/-- IoWrapper::send (src/ptls/src/io_wrapper/send.rs lines 10-34).  The
write half of the carrier is modelled as the list of bytes written so
far; the function returns the operation's result together with the new
contents of the write stream.  Mirroring the source, the length checks
(MessageTooLong for a payload longer than MAX_PAYLOAD_LENGTH, NoPayload
for an empty payload) happen before anything is written; on success the
frame version(2) content_type(1) length(2) payload is appended. -/
def send (stream : List Nat) (content_type : ContentType) (payload : List Nat) :
    Except IoWrapperError Unit × List Nat :=
  if payload.length > MAX_PAYLOAD_LENGTH then
    (.error (.MessageTooLong payload.length), stream)
  else if payload.length = 0 then
    (.error .NoPayload, stream)
  else
    (.ok (),
      stream ++ writeU16 PTLS_VERSION ++ [content_type.toByte]
        ++ writeU16 payload.length ++ payload)

/-- IoWrapper::receive (src/ptls/src/io_wrapper/receive.rs lines 10-44).
The read half of the carrier is modelled as the list of bytes not yet
consumed.  Mirroring the source: the header fields are read first (a
short stream is the Io error), then the length is validated (0 is
NoPayload, above MAX_PAYLOAD_LENGTH is MessageTooLong), then the version
is compared against PTLS_VERSION, then the content-type byte is decoded
(an unknown byte drains the payload and yields UnknownContentType), and
finally up to length payload bytes are read.  On success the result
carries the content type, the payload, and the rest of the stream. -/
def receive (stream : List Nat) :
    Except IoWrapperError (ContentType × List Nat × List Nat) := do
  let some (version, s1) := readU16 stream | .error .Io
  let some (contentTypeByte, s2) := readU8 s1 | .error .Io
  let some (length, s3) := readU16 s2 | .error .Io
  if length = 0 then
    .error .NoPayload
  else if length > MAX_PAYLOAD_LENGTH then
    .error (.MessageTooLong length)
  else if version ≠ PTLS_VERSION then
    .error (.InappropriateVersion version)
  else
    match ContentType.tryFrom contentTypeByte with
    | none => .error (.UnknownContentType contentTypeByte)
    | some content_type => .ok (content_type, s3.take length, s3.drop length)

end IoWrapper

/-! ## Crypto primitives: src/ptls/src/crypto -/

/-- Error enum CryptoError (src/ptls/src/crypto/error.rs).  The Rsa and
Signature variants abstract the error values wrapped from the rsa crate. -/
inductive CryptoError
  | HashFunctionOutputTooLarge
  | Rsa
  | Signature
  | InvalidHashFunction
deriving DecidableEq, Repr

/-- Enum HashFunction (src/ptls/src/crypto/hash_functions.rs, hash_enums!
invocation): Sha224 = 0, Sha256 = 1, Sha384 = 2, Sha512 = 3. -/
inductive HashFunction
  | Sha224
  | Sha256
  | Sha384
  | Sha512
deriving DecidableEq, Repr

/-- Digest::output_size() in bytes for each supported hash (rsa::sha2):
SHA-224 is 28, SHA-256 is 32, SHA-384 is 48, SHA-512 is 64. -/
def HashFunction.output_size : HashFunction → Nat
  | .Sha224 => 28
  | .Sha256 => 32
  | .Sha384 => 48
  | .Sha512 => 64

/-- The discriminant of the HashFunction variant (hash_type() as u8). -/
def HashFunction.toByte : HashFunction → Nat
  | .Sha224 => 0
  | .Sha256 => 1
  | .Sha384 => 2
  | .Sha512 => 3

/-- TryFrom u8 for HashFunction (hash_enums! @define_hash_functions):
ids 0-3 map to the four hashes, anything else is InvalidHashFunction. -/
def HashFunction.tryFrom : Nat → Except CryptoError HashFunction
  | 0 => .ok .Sha224
  | 1 => .ok .Sha256
  | 2 => .ok .Sha384
  | 3 => .ok .Sha512
  | _ => .error .InvalidHashFunction

/-- An RSA public key, modelled by the bit length of its modulus: the
crypto layer only ever queries public_key.n().bits(). -/
structure RsaPublicKey where
  bits : Nat
deriving DecidableEq, Repr

/-- An RSA private key, modelled by the bit length of its modulus. -/
structure RsaPrivateKey where
  bits : Nat
deriving DecidableEq, Repr

/-- The public key derived from a private key (RsaPublicKey::from): it has
the same modulus. -/
def RsaPublicKey.ofPrivate (k : RsaPrivateKey) : RsaPublicKey := ⟨k.bits⟩

/-- Struct Encrypt of src/ptls/src/crypto/encryption.rs lines 11-16.  The
compile-time hash parameter H (PhantomData) is modelled as a runtime
field. -/
structure Encrypt where
  public_key : RsaPublicKey
  block_size : Nat
  available_block_size : Nat
  hash_function : HashFunction
deriving DecidableEq, Repr

/-- Encrypt::try_new (encryption.rs lines 31-47): the OAEP overhead is
2 * hash output size + 2 bytes, block_size is the key size in bytes
(n.bits() / 8), and construction fails with HashFunctionOutputTooLarge
when the overhead reaches the block size. -/
def Encrypt.try_new (hf : HashFunction) (public_key : RsaPublicKey) :
    Except CryptoError Encrypt :=
  let overhead := hf.output_size * 2 + 2
  let block_size := public_key.bits / 8
  if overhead ≥ block_size then
    .error .HashFunctionOutputTooLarge
  else
    .ok ⟨public_key, block_size, block_size - overhead, hf⟩

/-- Encrypt::encrypt (encryption.rs lines 50-63).  The source loop
for i in (0..payload.len()).step_by(available_block_size) encrypts
payload[i..min(i + available_block_size, len)] per iteration, i.e. block
j covers the j-th chunk of available_block_size plaintext bytes, and the
loop runs div_ceil(len, available_block_size) times.  The single-block
RSA-OAEP operation (public_key.encrypt with a fresh OsRng draw per call)
is abstracted as the parameter encryptBlock; the block index stands for
the fresh randomness of each call.  The source returns a Result only
because the rsa crate's encrypt can fail; the abstract block operation is
total, so the chunking itself is too. -/
def Encrypt.encrypt (e : Encrypt) (encryptBlock : Nat → List Nat → List Nat)
    (payload : List Nat) : List Nat :=
  ((List.range ((payload.length + e.available_block_size - 1) / e.available_block_size)).map
    fun i =>
      encryptBlock i
        ((payload.drop (i * e.available_block_size)).take e.available_block_size)).flatten

/-- Struct Decrypt of src/ptls/src/crypto/encryption.rs lines 19-24. -/
structure Decrypt where
  private_key : RsaPrivateKey
  block_size : Nat
  available_block_size : Nat
  hash_function : HashFunction
deriving DecidableEq, Repr

/-- Decrypt::try_new (encryption.rs lines 71-84): same feasibility check
as Encrypt::try_new, against the private key's modulus. -/
def Decrypt.try_new (hf : HashFunction) (private_key : RsaPrivateKey) :
    Except CryptoError Decrypt :=
  let overhead := hf.output_size * 2 + 2
  let block_size := private_key.bits / 8
  if overhead ≥ block_size then
    .error .HashFunctionOutputTooLarge
  else
    .ok ⟨private_key, block_size, block_size - overhead, hf⟩

/-- Outcome of running a Rust function that can return Ok, return Err, or
panic (e.g. on an out-of-bounds slice index). -/
inductive RustOutcome (α : Type)
  | ok (val : α)
  | err (e : CryptoError)
  | panic
deriving DecidableEq, Repr

/-- Rust slice expression l[a..b]; none models the panic raised when the
range is out of bounds. -/
def slice? (l : List Nat) (a b : Nat) : Option (List Nat) :=
  if a ≤ b ∧ b ≤ l.length then some ((l.drop a).take (b - a)) else none

/-- Rust l[off..off + chunk.len()].copy_from_slice(chunk): overwrite
chunk.length bytes of l starting at off; none models the panic raised
when the target range exceeds the buffer. -/
def writeAt? (l : List Nat) (off : Nat) (chunk : List Nat) : Option (List Nat) :=
  if off + chunk.length ≤ l.length then
    some (l.take off ++ chunk ++ l.drop (off + chunk.length))
  else
    none

/-- Loop body of Decrypt::decrypt_owned (encryption.rs lines 91-99), over
the list of remaining block indices.  Iteration i reads ciphertext block
payload[i * block_size..(i + 1) * block_size] from the buffer being
mutated, decrypts it, copies the plaintext over the buffer at offset
i * available_block_size, and adds the plaintext length to total_len; the
final truncate(total_len) keeps the first total_len bytes. -/
def decryptGo (decryptBlock : List Nat → Except CryptoError (List Nat))
    (bs avail : Nat) : List Nat → List Nat → Nat → RustOutcome (List Nat)
  | [], buf, total => .ok (buf.take total)
  | i :: rest, buf, total =>
    match slice? buf (i * bs) ((i + 1) * bs) with
    | none => .panic
    | some block =>
      match decryptBlock block with
      | .error e => .err e
      | .ok decrypted =>
        match writeAt? buf (i * avail) decrypted with
        | none => .panic
        | some buf' => decryptGo decryptBlock bs avail rest buf' (total + decrypted.length)

/-- Decrypt::decrypt_owned (encryption.rs lines 87-104): the block count
is div_ceil(payload.len(), block_size) and the loop runs over block
indices 0..block_count.  The single-block RSA-OAEP decryption
(private_key.decrypt) is abstracted as the parameter decryptBlock. -/
def Decrypt.decrypt_owned (d : Decrypt)
    (decryptBlock : List Nat → Except CryptoError (List Nat))
    (payload : List Nat) : RustOutcome (List Nat) :=
  decryptGo decryptBlock d.block_size d.available_block_size
    (List.range ((payload.length + d.block_size - 1) / d.block_size)) payload 0

/-- Invariant relating a list of ciphertext blocks to the plaintext
chunks they decrypt to, in the shape Encrypt::encrypt produces: every
block has exactly bs bytes, every chunk but the last has exactly avail
bytes, and the last chunk has at most avail bytes. -/
inductive BlocksInvert (dec : List Nat → Except CryptoError (List Nat)) (bs avail : Nat) :
    List (List Nat) → List (List Nat) → Prop
  | nil : BlocksInvert dec bs avail [] []
  | last {e p : List Nat} : e.length = bs → dec e = .ok p → p.length ≤ avail →
      BlocksInvert dec bs avail [e] [p]
  | cons {e p : List Nat} {es ps : List (List Nat)} :
      e.length = bs → dec e = .ok p → p.length = avail →
      BlocksInvert dec bs avail es ps → BlocksInvert dec bs avail (e :: es) (p :: ps)

/-- Struct Signing of src/ptls/src/crypto/signature.rs lines 12-17.  Only
construction is modelled; sign delegates to the rsa crate. -/
structure Signing where
  private_key : RsaPrivateKey
  hash_function : HashFunction
deriving DecidableEq, Repr

/-- Signing::try_new (signature.rs lines 32-40): fails with
HashFunctionOutputTooLarge when n.bits() / 8 <= output_size * 2 + 2. -/
def Signing.try_new (hf : HashFunction) (private_key : RsaPrivateKey) :
    Except CryptoError Signing :=
  if private_key.bits / 8 ≤ hf.output_size * 2 + 2 then
    .error .HashFunctionOutputTooLarge
  else
    .ok ⟨private_key, hf⟩

/-- Struct Verifying of src/ptls/src/crypto/signature.rs lines 20-25. -/
structure Verifying where
  public_key : RsaPublicKey
  hash_function : HashFunction
deriving DecidableEq, Repr

/-- Verifying::try_new (signature.rs lines 52-60): same feasibility check
as Signing::try_new, against the public key's modulus. -/
def Verifying.try_new (hf : HashFunction) (public_key : RsaPublicKey) :
    Except CryptoError Verifying :=
  if public_key.bits / 8 ≤ hf.output_size * 2 + 2 then
    .error .HashFunctionOutputTooLarge
  else
    .ok ⟨public_key, hf⟩

/-- Enum EncryptFunction generated by hash_enums! in
src/ptls/src/crypto/hash_functions.rs: one variant per hash, each
wrapping an Encrypt specialised to that hash.  Modelled as the hash tag
paired with the wrapped instance. -/
structure EncryptFunction where
  hash_function : HashFunction
  inner : Encrypt
deriving DecidableEq, Repr

/-- EncryptFunction::try_new: dispatch on the hash tag and build the
corresponding Encrypt via Encrypt::try_new, wrapping it in the matching
variant. -/
def EncryptFunction.try_new (hf : HashFunction) (public_key : RsaPublicKey) :
    Except CryptoError EncryptFunction :=
  (Encrypt.try_new hf public_key).map fun e => ⟨hf, e⟩

/-- EncryptFunction::hash_type: the hash tag of the wrapped variant. -/
def EncryptFunction.hash_type (f : EncryptFunction) : HashFunction :=
  f.hash_function

/-- Enum DecryptFunction generated by hash_enums! (as EncryptFunction). -/
structure DecryptFunction where
  hash_function : HashFunction
  inner : Decrypt
deriving DecidableEq, Repr

/-- DecryptFunction::try_new, via Decrypt::try_new. -/
def DecryptFunction.try_new (hf : HashFunction) (private_key : RsaPrivateKey) :
    Except CryptoError DecryptFunction :=
  (Decrypt.try_new hf private_key).map fun d => ⟨hf, d⟩

/-- DecryptFunction::hash_type. -/
def DecryptFunction.hash_type (f : DecryptFunction) : HashFunction :=
  f.hash_function

/-- Enum SigningFunction generated by hash_enums! (as EncryptFunction). -/
structure SigningFunction where
  hash_function : HashFunction
  inner : Signing
deriving DecidableEq, Repr

/-- SigningFunction::try_new, via Signing::try_new. -/
def SigningFunction.try_new (hf : HashFunction) (private_key : RsaPrivateKey) :
    Except CryptoError SigningFunction :=
  (Signing.try_new hf private_key).map fun s => ⟨hf, s⟩

/-- SigningFunction::hash_type. -/
def SigningFunction.hash_type (f : SigningFunction) : HashFunction :=
  f.hash_function

/-- Enum VerifyingFunction generated by hash_enums! (as EncryptFunction). -/
structure VerifyingFunction where
  hash_function : HashFunction
  inner : Verifying
deriving DecidableEq, Repr

/-- VerifyingFunction::try_new, via Verifying::try_new. -/
def VerifyingFunction.try_new (hf : HashFunction) (public_key : RsaPublicKey) :
    Except CryptoError VerifyingFunction :=
  (Verifying.try_new hf public_key).map fun v => ⟨hf, v⟩

/-- VerifyingFunction::hash_type. -/
def VerifyingFunction.hash_type (f : VerifyingFunction) : HashFunction :=
  f.hash_function

/-! ## Tunnel: src/ptls/src/tunnel/mod.rs and handshake_subprotocol.rs -/

/-- Enum TunnelState (src/ptls/src/tunnel/mod.rs lines 18-28). -/
inductive TunnelState
  | Handshake
  | Application
  | Terminated
  | GracefullyDisconnected
deriving DecidableEq, Repr

/-- Struct SignedPublicKey (src/ptls/src/tunnel/mod.rs lines 31-36). -/
structure SignedPublicKey where
  public_key : RsaPublicKey
  expries_at : Int
  trusted_authority_id : Nat
  signature : List Nat
deriving DecidableEq, Repr

/-- Struct Tunnel (src/ptls/src/tunnel/mod.rs lines 40-48).  The
io_wrapper field is not carried here: the carrier streams are modelled
separately (IoWrapper.send and IoWrapper.receive over List Nat), and the
handshake functions below return the structured messages they send. -/
structure Tunnel where
  signed_public : Option SignedPublicKey
  local_decrypt : DecryptFunction
  local_signing : SigningFunction
  peer_encrypt : Option EncryptFunction
  peer_verifying : Option VerifyingFunction
  state : TunnelState
deriving DecidableEq, Repr

/-- Tunnel::new (src/ptls/src/tunnel/mod.rs lines 56-70): both peer
fields start absent and the state starts as Handshake. -/
def Tunnel.new (local_decrypt : DecryptFunction) (local_signing : SigningFunction) :
    Tunnel :=
  { signed_public := none
    local_decrypt := local_decrypt
    local_signing := local_signing
    peer_encrypt := none
    peer_verifying := none
    state := .Handshake }

/-- Enum HandshakeError (src/ptls/src/sub_protocol/handshake.rs). -/
inductive HandshakeError
  | InappropriatePublicKey
  | UnknownCa
  | InvalidSignature
  | InvalidRandom
  | InvalidContentType
deriving DecidableEq, Repr

/-- Modelled from the spec: the tunnel error enum Error used by
src/ptls/src/tunnel/mod.rs, handshake_subprotocol.rs and
encrypted_tunnel.rs is declared in a tunnel/error.rs revision that is
absent from src/ (the checked-in tunnel/error.rs belongs to an older
iteration and defines an unrelated TunnelError).  The variants are
exactly those constructed or converted to in the in-src callers:
IoWrapper and Crypto wrap the lower layers' errors (the ? conversions),
and Handshake, InvalidPayload, InvalidPublicKey, UnexceptedError and
NoPublicKey appear literally in the tunnel sources. -/
inductive Error
  | IoWrapper (e : IoWrapperError)
  | Crypto (e : CryptoError)
  | Handshake (e : HandshakeError)
  | InvalidPayload
  | InvalidPublicKey
  | UnexceptedError
  | NoPublicKey
deriving DecidableEq, Repr

/-- Tunnel::set_peer_public_key (src/ptls/src/tunnel/mod.rs lines 74-83).
Mirroring the source exactly: peer_encrypt is built by passing
signature_hf to EncryptFunction::try_new (line 80) and peer_verifying by
passing padding_hf to VerifyingFunction::try_new (line 81) — note that
this is the opposite pairing from the one used by the two handshake
paths in handshake_subprotocol.rs. -/
def Tunnel.set_peer_public_key (t : Tunnel) (public_key : RsaPublicKey)
    (padding_hf signature_hf : HashFunction) : Except Error Tunnel :=
  match EncryptFunction.try_new signature_hf public_key with
  | .error e => .error (.Crypto e)
  | .ok pe =>
    match VerifyingFunction.try_new padding_hf public_key with
    | .error e => .error (.Crypto e)
    | .ok pv => .ok { t with peer_encrypt := some pe, peer_verifying := some pv }

/-- Enum HandshakeContentType (src/ptls/src/sub_protocol/handshake.rs,
impl_handshake_payload! invocation): ClientHello = 0,
EncryptedClientHello = 1, ServerHello = 2, Finished = 3. -/
inductive HandshakeContentType
  | ClientHello
  | EncryptedClientHello
  | ServerHello
  | Finished
deriving DecidableEq, Repr

/-- The discriminant of the HandshakeContentType variant. -/
def HandshakeContentType.toByte : HandshakeContentType → Nat
  | .ClientHello => 0
  | .EncryptedClientHello => 1
  | .ServerHello => 2
  | .Finished => 3

/-- TryFrom u8 for HandshakeContentType: 0-3 map to the four message
kinds, anything else is HandshakeError::InvalidContentType. -/
def HandshakeContentType.tryFrom : Nat → Except HandshakeError HandshakeContentType
  | 0 => .ok .ClientHello
  | 1 => .ok .EncryptedClientHello
  | 2 => .ok .ServerHello
  | 3 => .ok .Finished
  | _ => .error .InvalidContentType

/-- Struct ClientHello (src/ptls/src/sub_protocol/handshake.rs).  The
public_key field holds DER bytes in the source; it is modelled by its
parse result under RsaPublicKey::from_public_key_der: some key when the
bytes parse, none otherwise. -/
structure ClientHello where
  public_key : Option RsaPublicKey
  signature_hf : Nat
  padding_hf : Nat
deriving DecidableEq, Repr

/-- Struct ServerHello (src/ptls/src/sub_protocol/handshake.rs), with the
DER public_key modelled by its parse result as in ClientHello. -/
structure ServerHello where
  public_key : Option RsaPublicKey
  expries_at : Int
  signature_hf : Nat
  padding_hf : Nat
  trusted_authority_id : Nat
  signature : List Nat
deriving DecidableEq, Repr

/-- Struct Finished (src/ptls/src/sub_protocol/handshake.rs). -/
structure Finished where
  random : List Nat
  random_signature : List Nat
deriving DecidableEq, Repr

/-- Struct EncryptedClientHello (src/ptls/src/sub_protocol/handshake.rs). -/
structure EncryptedClientHello where
  public_key : Option RsaPublicKey
  signature_hf : Nat
  padding_hf : Nat
  random : List Nat
  random_signature : List Nat
deriving DecidableEq, Repr

/-- A structured handshake message, standing for the bincode-serialized
body that follows the one-byte inner content-type tag of a Handshake
record. -/
inductive HandshakeMessage
  | clientHello (ch : ClientHello)
  | encryptedClientHello (ech : EncryptedClientHello)
  | serverHello (sh : ServerHello)
  | finished (f : Finished)
deriving DecidableEq, Repr

/-- The decrypted payload of an incoming handshake-phase record, as seen
by Tunnel::full_handshake after receive_internal: the first byte (the
inner content-type tag) plus the bincode-deserialization result of the
remaining bytes, modelled structurally (opaqueBody stands for bytes that
deserialize as no known message, so that bincode::deserialize to a
specific message type succeeds exactly when the body is that message). -/
inductive HandshakeBody
  | message (m : HandshakeMessage)
  | opaqueBody
deriving DecidableEq, Repr

/-- Tunnel::full_handshake (src/ptls/src/tunnel/handshake_subprotocol.rs
lines 112-158), the full client handshake.  The function sends one
unencrypted ClientHello advertising the public key derived from
local_decrypt and the local hash ids (lines 113-128), then consumes the
peer's reply (modelled by the argument reply: the content type of the
received record together with the first payload byte and the
deserialized remainder, after decryption by receive_internal).  The
reply must be a Handshake record (line 132) whose tag is ServerHello
(line 136) and whose body deserializes as a ServerHello (line 140, else
Error::InvalidPayload); its DER public key must parse (lines 145-146,
else HandshakeError::InappropriatePublicKey); then peer_encrypt is built
from the advertised padding hash (lines 148-151) and peer_verifying from
the advertised signature hash (lines 152-155).  The result carries the
updated tunnel and the list of (record content type, message) pairs the
client sent during the call.  The source's payload.len() <= 2 guard
(line 132) is not modelled: any serialized ServerHello body is longer
than two bytes. -/
def Tunnel.full_handshake (t : Tunnel)
    (reply : ContentType × Nat × HandshakeBody) :
    Except Error (Tunnel × List (ContentType × HandshakeMessage)) :=
  let ch : ClientHello :=
    { public_key := some (RsaPublicKey.ofPrivate t.local_decrypt.inner.private_key)
      padding_hf := t.local_decrypt.hash_type.toByte
      signature_hf := t.local_signing.hash_type.toByte }
  let sent := [(ContentType.Handshake, HandshakeMessage.clientHello ch)]
  let (content_type, tag, body) := reply
  if content_type ≠ ContentType.Handshake then
    .error (.Handshake .InvalidContentType)
  else
    match HandshakeContentType.tryFrom tag with
    | .error e => .error (.Handshake e)
    | .ok hct =>
      if hct ≠ .ServerHello then
        .error (.Handshake .InvalidContentType)
      else
        match body with
        | .message (.serverHello sh) =>
          match sh.public_key with
          | none => .error (.Handshake .InappropriatePublicKey)
          | some server_public =>
            match HashFunction.tryFrom sh.padding_hf with
            | .error e => .error (.Crypto e)
            | .ok padding =>
              match EncryptFunction.try_new padding server_public with
              | .error e => .error (.Crypto e)
              | .ok pe =>
                match HashFunction.tryFrom sh.signature_hf with
                | .error e => .error (.Crypto e)
                | .ok signatureHash =>
                  match VerifyingFunction.try_new signatureHash server_public with
                  | .error e => .error (.Crypto e)
                  | .ok pv =>
                    .ok ({ t with peer_encrypt := some pe, peer_verifying := some pv },
                      sent)
        | _ => .error .InvalidPayload

/-! ## Concrete instances used by witnesses -/

/-- A concrete single-block cipher instantiating the abstract RSA-OAEP
block operation in witnesses, for a 1024-bit key (128-byte blocks): the
block records the chunk length followed by the chunk and zero padding.
For chunks of at most 126 bytes the block has exactly 128 bytes, and
mockDecryptBlock inverts it. -/
def mockEncryptBlock (randomness : Nat) (chunk : List Nat) : List Nat :=
  chunk.length :: (chunk ++ List.replicate (127 - chunk.length) (randomness - randomness))

/-- Inverse of mockEncryptBlock: read the length byte and take that many
bytes of the remainder. -/
def mockDecryptBlock : List Nat → Except CryptoError (List Nat)
  | [] => .error .Rsa
  | n :: rest => .ok (rest.take n)

/-- A concrete DecryptFunction over a 1024-bit key and SHA-256, equal to
the value produced by DecryptFunction::try_new Sha256 on that key. -/
def sampleDecryptFunction : DecryptFunction :=
  ⟨.Sha256, ⟨⟨1024⟩, 128, 62, .Sha256⟩⟩

/-- A concrete SigningFunction over a 1024-bit key and SHA-256, equal to
the value produced by SigningFunction::try_new Sha256 on that key. -/
def sampleSigningFunction : SigningFunction :=
  ⟨.Sha256, ⟨⟨1024⟩, .Sha256⟩⟩

end Ptls

deriving instance DecidableEq for Except

namespace Ptls

/-! ## Theorems -/

/-- Claim C1 (counterexample): the wire byte 1 decodes to
ContentType::Handshake, not ApplicationData, so the S1 frame
[0x00, 0x00, 0x01, 0x00, 0x01, 0x7B] is received as (Handshake, [0x7B]);
moreover byte 0 decodes to ClientHello, not Handshake. -/
theorem content_type_byte_one_is_handshake_not_appdata :
    IoWrapper.receive [0, 0, 1, 0, 1, 123] = .ok (.Handshake, [123], []) ∧
    ContentType.Handshake ≠ ContentType.ApplicationData ∧
    ContentType.tryFrom 0 = some .ClientHello ∧
    ContentType.tryFrom 0 ≠ some .Handshake := by decide

/-- Claim C1 (amended): the content_type byte maps as ClientHello = 0,
Handshake = 1, ApplicationData = 2, Alert = 3 (other bytes are unknown),
and the frame [0x00, 0x00, 0x01, 0x00, 0x01, 0x7B] — version 0, content
type byte 1, length 1, payload 0x7B — is received as (Handshake, [0x7B])
with the stream fully consumed. -/
theorem content_type_wire_mapping_and_S1 :
    ContentType.tryFrom 0 = some .ClientHello ∧
    ContentType.tryFrom 1 = some .Handshake ∧
    ContentType.tryFrom 2 = some .ApplicationData ∧
    ContentType.tryFrom 3 = some .Alert ∧
    ContentType.tryFrom 4 = none ∧
    ContentType.tryFrom 255 = none ∧
    ContentType.ClientHello.toByte = 0 ∧
    ContentType.Handshake.toByte = 1 ∧
    ContentType.ApplicationData.toByte = 2 ∧
    ContentType.Alert.toByte = 3 ∧
    IoWrapper.receive [0, 0, 1, 0, 1, 123] = .ok (.Handshake, [123], []) := by decide

/-- Claim C3: for every content_type and every payload p with
1 ≤ |p| ≤ MAX_PAYLOAD_LENGTH, sending (content_type, p) over an empty
carrier succeeds and receiving the produced bytes yields exactly
(content_type, p), consuming the whole frame. -/
theorem send_receive_roundtrip (ct : ContentType) (p : List Nat)
    (h1 : 1 ≤ p.length) (h2 : p.length ≤ MAX_PAYLOAD_LENGTH) :
    (IoWrapper.send [] ct p).1 = .ok () ∧
    IoWrapper.receive (IoWrapper.send [] ct p).2 = .ok (ct, p, []) := by
  have hmax : p.length ≤ 65530 := by
    simpa [MAX_PAYLOAD_LENGTH, sizeOfHeader] using h2
  have hng : ¬ (p.length > MAX_PAYLOAD_LENGTH) := not_lt.mpr h2
  have hnz : ¬ (p.length = 0) := by omega
  have hts : ContentType.tryFrom ct.toByte = some ct := by cases ct <;> rfl
  have hdec : p.length / 256 % 256 * 256 + p.length % 256 = p.length := by omega
  refine ⟨?_, ?_⟩
  · simp [IoWrapper.send, hng, hnz]
  · simp only [IoWrapper.send, hng, hnz, if_false, ite_false]
    simp only [writeU16, PTLS_VERSION, List.nil_append, List.cons_append, List.append_assoc]
    simp only [IoWrapper.receive, readU16, readU8, hdec]
    simp [hnz, hng, hts, hdec, PTLS_VERSION]

/-- Witness for C3, at content_type = ApplicationData and p = [0x7B]. -/
theorem send_receive_roundtrip_witness :
    1 ≤ ([123] : List Nat).length ∧
    (IoWrapper.send [] .ApplicationData [123]).1 = .ok () ∧
    IoWrapper.receive (IoWrapper.send [] .ApplicationData [123]).2 =
      .ok (.ApplicationData, [123], []) :=
  ⟨by decide,
   send_receive_roundtrip .ApplicationData [123] (by decide) (by decide)⟩

/-- Claim C7 (counterexample): a frame whose version field is 1 but whose
length field is 0 is rejected with NoPayload, not with
InappropriateVersion, because receive validates the length first. -/
theorem receive_version1_length0_is_noPayload :
    IoWrapper.receive [0, 1, 1, 0, 0] = .error .NoPayload ∧
    IoWrapperError.NoPayload ≠ .InappropriateVersion 1 := by decide

/-- Claim C7 (amended): for an incoming frame with version ≠ 0, receive
returns InappropriateVersion carrying that version exactly when the
length field passes its bounds check (1 ≤ length ≤ MAX_PAYLOAD_LENGTH);
a zero length yields NoPayload and an oversized length yields
MessageTooLong even when the version is wrong, because length is
validated before version. -/
theorem receive_validates_length_before_version (version ctByte len : Nat)
    (rest : List Nat) (hver : version < 65536) (hv0 : version ≠ 0)
    (hlen : len < 65536) :
    (len = 0 →
      IoWrapper.receive (writeU16 version ++ [ctByte] ++ writeU16 len ++ rest) =
        .error .NoPayload) ∧
    (MAX_PAYLOAD_LENGTH < len →
      IoWrapper.receive (writeU16 version ++ [ctByte] ++ writeU16 len ++ rest) =
        .error (.MessageTooLong len)) ∧
    (1 ≤ len → len ≤ MAX_PAYLOAD_LENGTH →
      IoWrapper.receive (writeU16 version ++ [ctByte] ++ writeU16 len ++ rest) =
        .error (.InappropriateVersion version)) := by
  have hdecv : version / 256 % 256 * 256 + version % 256 = version := by omega
  have hdecl : len / 256 % 256 * 256 + len % 256 = len := by omega
  simp only [writeU16, List.cons_append, List.nil_append]
  simp only [IoWrapper.receive, readU16, readU8, hdecv, hdecl]
  refine ⟨fun h0 => ?_, fun hbig => ?_, fun h1 h2 => ?_⟩
  · simp [h0]
  · have : ¬ (len = 0) := by
      have := hbig
      simp [MAX_PAYLOAD_LENGTH, sizeOfHeader] at this
      omega
    simp [this, hbig]
  · have hnz : ¬ (len = 0) := by omega
    have hng : ¬ (MAX_PAYLOAD_LENGTH < len) := not_lt.mpr h2
    simp [hnz, hng, PTLS_VERSION, hv0]

/-- Witness for C7, at version 1: a length-0 frame yields NoPayload and a
length-1 frame yields InappropriateVersion 1. -/
theorem receive_validates_length_before_version_witness :
    IoWrapper.receive (writeU16 1 ++ [2] ++ writeU16 0 ++ []) = .error .NoPayload ∧
    IoWrapper.receive (writeU16 1 ++ [2] ++ writeU16 1 ++ [123]) =
      .error (.InappropriateVersion 1) :=
  ⟨(receive_validates_length_before_version 1 2 0 [] (by decide) (by decide)
      (by decide)).1 rfl,
   (receive_validates_length_before_version 1 2 1 [123] (by decide) (by decide)
      (by decide)).2.2 (by decide) (by decide)⟩

/-- Helper: send rejects any payload longer than MAX_PAYLOAD_LENGTH with
MessageTooLong carrying the payload length. -/
theorem send_too_long (st : List Nat) (ct : ContentType) (p : List Nat)
    (h : MAX_PAYLOAD_LENGTH < p.length) :
    (IoWrapper.send st ct p).1 = .error (.MessageTooLong p.length) := by
  simp [IoWrapper.send, h]

/-- Claim C8 (counterexample): MAX_PAYLOAD_LENGTH is not 65531 — the
size_of of the in-memory Header struct is 6, not the 5 bytes of the wire
header — and send rejects a payload of 65531 bytes with MessageTooLong. -/
theorem max_payload_length_is_65530_not_65531 :
    MAX_PAYLOAD_LENGTH ≠ 65531 ∧
    (IoWrapper.send [] .ApplicationData (List.replicate 65531 0)).1 =
      .error (.MessageTooLong 65531) := by
  have hl : (List.replicate 65531 (0 : Nat)).length = 65531 :=
    List.length_replicate ..
  refine ⟨by decide, ?_⟩
  rw [send_too_long _ _ _ (by rw [hl]; decide), hl]

/-- Claim C8 (amended): MAX_PAYLOAD_LENGTH = u16::MAX − size_of Header
+ 1 = 65535 − 6 + 1 = 65530, and send accepts exactly the payloads p
with 1 ≤ |p| ≤ 65530, returning NoPayload for |p| = 0 and MessageTooLong
for |p| > 65530. -/
theorem send_accepts_exactly_1_to_65530 (ct : ContentType) (p : List Nat) :
    MAX_PAYLOAD_LENGTH = 65530 ∧
    ((IoWrapper.send [] ct p).1 = .ok () ↔ 1 ≤ p.length ∧ p.length ≤ 65530) ∧
    (p.length = 0 → (IoWrapper.send [] ct p).1 = .error .NoPayload) ∧
    (65530 < p.length →
      (IoWrapper.send [] ct p).1 = .error (.MessageTooLong p.length)) := by
  refine ⟨rfl, ?_, ?_, ?_⟩
  · unfold IoWrapper.send
    split
    · rename_i h
      simp [MAX_PAYLOAD_LENGTH, sizeOfHeader] at h
      simp
      omega
    · split
      · rename_i h h0
        simp
        omega
      · rename_i h h0
        simp [MAX_PAYLOAD_LENGTH, sizeOfHeader] at h
        simp
        omega
  · intro h0
    have : ¬ (p.length > MAX_PAYLOAD_LENGTH) := by
      simp [MAX_PAYLOAD_LENGTH, sizeOfHeader]
      omega
    simp [IoWrapper.send, this, h0]
  · intro hbig
    have : p.length > MAX_PAYLOAD_LENGTH := by
      simp [MAX_PAYLOAD_LENGTH, sizeOfHeader]
      omega
    simp [IoWrapper.send, this]

/-- Witness for C8: the empty payload is rejected with NoPayload and a
one-byte payload is accepted. -/
theorem send_accepts_exactly_1_to_65530_witness :
    (IoWrapper.send [] .Alert []).1 = .error .NoPayload ∧
    (IoWrapper.send [] .Alert [7]).1 = .ok () :=
  ⟨(send_accepts_exactly_1_to_65530 .Alert []).2.2.1 rfl,
   ((send_accepts_exactly_1_to_65530 .Alert [7]).2.1).mpr (by decide)⟩

/-- Claim C10: when send fails with NoPayload or MessageTooLong, the
write stream is unchanged — both validations happen before any header
byte is emitted. -/
theorem send_error_leaves_stream_unchanged (st : List Nat) (ct : ContentType)
    (p : List Nat)
    (h : (IoWrapper.send st ct p).1 = .error .NoPayload ∨
         (IoWrapper.send st ct p).1 = .error (.MessageTooLong p.length)) :
    (IoWrapper.send st ct p).2 = st := by
  unfold IoWrapper.send at h ⊢
  split <;> simp_all
  split <;> simp_all

/-- Witness for C10: sending an empty payload over a stream holding one
byte fails and leaves the stream as it was. -/
theorem send_error_leaves_stream_unchanged_witness :
    (IoWrapper.send [5] .Alert []).2 = [5] :=
  send_error_leaves_stream_unchanged [5] .Alert [] (.inl (by decide))

/-- Claim C5 (code-bug evidence): with a 1024-bit key and SHA-256 (block
size 128), decrypt_owned on a one-byte ciphertext — whose length is not
a multiple of the key size — panics on the out-of-bounds slice
payload[0..128] instead of returning an error, whatever the underlying
single-block decryption does. -/
theorem decrypt_owned_panics_on_nonmultiple_length
    (decryptBlock : List Nat → Except CryptoError (List Nat)) :
    Decrypt.try_new .Sha256 ⟨1024⟩ = .ok ⟨⟨1024⟩, 128, 62, .Sha256⟩ ∧
    Decrypt.decrypt_owned ⟨⟨1024⟩, 128, 62, .Sha256⟩ decryptBlock [0] = .panic := by
  constructor
  · decide
  · rfl

/-- Claim C6: each of the four crypto primitives fails construction with
HashFunctionOutputTooLarge exactly when 2 · hash_output_size + 2 ≥
key_size_bytes; in particular all four fail with SHA-256 and a 512-bit
key (66 ≥ 64) and succeed with SHA-256 and a 1024-bit key (66 < 128). -/
theorem try_new_fails_iff_padding_infeasible (hf : HashFunction) (bits : Nat) :
    (Encrypt.try_new hf ⟨bits⟩ = .error .HashFunctionOutputTooLarge ↔
      2 * hf.output_size + 2 ≥ bits / 8) ∧
    (Decrypt.try_new hf ⟨bits⟩ = .error .HashFunctionOutputTooLarge ↔
      2 * hf.output_size + 2 ≥ bits / 8) ∧
    (Signing.try_new hf ⟨bits⟩ = .error .HashFunctionOutputTooLarge ↔
      2 * hf.output_size + 2 ≥ bits / 8) ∧
    (Verifying.try_new hf ⟨bits⟩ = .error .HashFunctionOutputTooLarge ↔
      2 * hf.output_size + 2 ≥ bits / 8) ∧
    Encrypt.try_new .Sha256 ⟨512⟩ = .error .HashFunctionOutputTooLarge ∧
    Decrypt.try_new .Sha256 ⟨512⟩ = .error .HashFunctionOutputTooLarge ∧
    Signing.try_new .Sha256 ⟨512⟩ = .error .HashFunctionOutputTooLarge ∧
    Verifying.try_new .Sha256 ⟨512⟩ = .error .HashFunctionOutputTooLarge ∧
    Encrypt.try_new .Sha256 ⟨1024⟩ = .ok ⟨⟨1024⟩, 128, 62, .Sha256⟩ ∧
    Decrypt.try_new .Sha256 ⟨1024⟩ = .ok ⟨⟨1024⟩, 128, 62, .Sha256⟩ ∧
    Signing.try_new .Sha256 ⟨1024⟩ = .ok ⟨⟨1024⟩, .Sha256⟩ ∧
    Verifying.try_new .Sha256 ⟨1024⟩ = .ok ⟨⟨1024⟩, .Sha256⟩ := by
  refine ⟨?_, ?_, ?_, ?_, by decide, by decide, by decide, by decide,
    by decide, by decide, by decide, by decide⟩
  · simp only [Encrypt.try_new]
    split
    · rename_i h
      simp
      omega
    · rename_i h
      simp
      omega
  · simp only [Decrypt.try_new]
    split
    · rename_i h
      simp
      omega
    · rename_i h
      simp
      omega
  · simp only [Signing.try_new]
    split
    · rename_i h
      simp
      omega
    · rename_i h
      simp
      omega
  · simp only [Verifying.try_new]
    split
    · rename_i h
      simp
      omega
    · rename_i h
      simp
      omega

/-- Claim C9 (code-bug evidence): calling set_peer_public_key with
padding_hf = Sha256 and signature_hf = Sha512 yields a peer_encrypt
parameterised by Sha512 and a peer_verifying parameterised by Sha256 —
the opposite of the advertised pairing, and the opposite of what the two
handshake installation paths do. -/
theorem set_peer_public_key_swaps_hashes :
    ((Tunnel.new sampleDecryptFunction sampleSigningFunction).set_peer_public_key
        ⟨2048⟩ .Sha256 .Sha512).map
      (fun t => (t.peer_encrypt.map EncryptFunction.hash_type,
                 t.peer_verifying.map VerifyingFunction.hash_type)) =
      .ok (some .Sha512, some .Sha256) := by decide

/-- Claim C2 (code-bug evidence): whenever the full client handshake
succeeds, the only message it has sent is the initial ClientHello — it
never signs a nonce and never sends a Finished — and the tunnel state is
left exactly as it was (so a tunnel that started in Handshake is still
not in Application), although peer_encrypt and peer_verifying are
installed. -/
theorem full_handshake_sends_no_finished_and_keeps_state
    (t : Tunnel) (reply : ContentType × Nat × HandshakeBody)
    (t' : Tunnel) (sent : List (ContentType × HandshakeMessage))
    (h : t.full_handshake reply = .ok (t', sent)) :
    t'.state = t.state ∧
    (∀ p ∈ sent, ∀ f : Finished, p.2 ≠ .finished f) ∧
    t'.peer_encrypt.isSome = true ∧
    t'.peer_verifying.isSome = true ∧
    (t.state = .Handshake → t'.state ≠ .Application) := by
  obtain ⟨ct, tag, body⟩ := reply
  unfold Tunnel.full_handshake at h
  repeat' split at h
  all_goals try simp_all
  obtain ⟨ht', hsent⟩ := h
  subst ht'
  subst hsent
  simp
  intro hs
  simp [hs]

/-- Witness for C2: a fresh tunnel over the sample 1024-bit identity, fed
a ServerHello advertising a 2048-bit key with SHA-256 for both hashes,
completes full_handshake with its state unchanged. -/
theorem full_handshake_sends_no_finished_and_keeps_state_witness :
    Tunnel.state
      { signed_public := none
        local_decrypt := sampleDecryptFunction
        local_signing := sampleSigningFunction
        peer_encrypt := some ⟨.Sha256, ⟨⟨2048⟩, 256, 190, .Sha256⟩⟩
        peer_verifying := some ⟨.Sha256, ⟨⟨2048⟩, .Sha256⟩⟩
        state := .Handshake } =
      Tunnel.state (Tunnel.new sampleDecryptFunction sampleSigningFunction) :=
  (full_handshake_sends_no_finished_and_keeps_state
    (Tunnel.new sampleDecryptFunction sampleSigningFunction)
    (.Handshake, 2, .message (.serverHello ⟨some ⟨2048⟩, 0, 1, 1, 0, []⟩))
    { signed_public := none
      local_decrypt := sampleDecryptFunction
      local_signing := sampleSigningFunction
      peer_encrypt := some ⟨.Sha256, ⟨⟨2048⟩, 256, 190, .Sha256⟩⟩
      peer_verifying := some ⟨.Sha256, ⟨⟨2048⟩, .Sha256⟩⟩
      state := .Handshake }
    [(ContentType.Handshake, HandshakeMessage.clientHello ⟨some ⟨1024⟩, 1, 1⟩)]
    (by decide)).1


set_option maxRecDepth 100000 in
/-- Claim C4 (counterexample): with a 1024-bit key and SHA-256, the
plaintext chunk size is 128 − 66 = 62 bytes, so a 512-byte payload is
split into ceil(512 / 62) = 9 blocks and the ciphertext has
9 × 128 = 1152 bytes, not the 2 × 128 = 256 bytes the claim computes
(evaluated here with a concrete 128-byte-block cipher standing in for
RSA-OAEP). -/
theorem encrypt_512_with_1024_bit_key_is_1152_bytes_not_256 :
    (Encrypt.try_new .Sha256 ⟨1024⟩).map
      (fun e => (e.encrypt mockEncryptBlock (List.replicate 512 170)).length) =
      .ok 1152 ∧ (1152 : Nat) ≠ 2 * 128 := by
  constructor
  · decide
  · decide

/-- Helper for C4: running the decrypt_owned loop over blocks that
satisfy BlocksInvert, starting at block index i with the buffer holding
the already-written plaintext D, i·(bs − avail) bytes of leftover
garbage g, and the remaining ciphertext blocks, returns D followed by
all remaining plaintext chunks.  The key invariants are that writes at
offset j·avail stay below later reads at offset j·bs, and that the
final truncate keeps exactly the written plaintext. -/
theorem decryptGo_spec {dec : List Nat → Except CryptoError (List Nat)} {bs avail : Nat}
    (hba : avail ≤ bs)
    {es ps : List (List Nat)} (hbi : BlocksInvert dec bs avail es ps) :
    ∀ (i : Nat) (D g : List Nat),
      D.length = i * avail → D.length + g.length = i * bs →
      decryptGo dec bs avail (List.range' i es.length) (D ++ g ++ es.flatten) (i * avail) =
        .ok (D ++ ps.flatten) := by
  induction hbi with
  | nil =>
    intro i D g hD hDg
    simp only [List.flatten_nil, List.append_nil, List.length_nil, List.range'_zero,
      decryptGo]
    rw [List.take_left' hD]
  | last he hdec hple =>
    rename_i e p
    intro i D g hD hDg
    have hmul : i * avail ≤ i * bs := Nat.mul_le_mul_left i hba
    have hsucc : (i + 1) * bs = i * bs + bs := Nat.succ_mul i bs
    have hDg' : (D ++ g).length = i * bs := by
      rw [List.length_append]; omega
    have hbuflen : (D ++ g ++ [e].flatten).length = i * bs + bs := by
      simp [he]; omega
    have hflat : ([e] : List (List Nat)).flatten = e := by simp
    rw [hflat]
    have hslice : slice? (D ++ g ++ e) (i * bs) ((i + 1) * bs) = some e := by
      unfold slice?
      rw [if_pos]
      · rw [List.drop_left' hDg', hsucc, Nat.add_sub_cancel_left, ← he, List.take_length]
      · refine ⟨by omega, ?_⟩
        rw [List.length_append, hDg', he]; omega
    have hwlen : i * avail + p.length ≤ (D ++ g ++ e).length := by
      rw [List.length_append, hDg', he]; omega
    have htake : (D ++ g ++ e).take (i * avail) = D := by
      rw [List.append_assoc, List.take_left' hD]
    have hwrite : writeAt? (D ++ g ++ e) (i * avail) p =
        some (D ++ p ++ (D ++ g ++ e).drop (i * avail + p.length)) := by
      unfold writeAt?
      rw [if_pos hwlen, htake]
    simp only [List.length_cons, List.length_nil, List.range'_succ, List.range'_zero]
    simp only [decryptGo, hslice, hdec, hwrite]
    have hfinal : (D ++ p ++ (D ++ g ++ e).drop (i * avail + p.length)).take
        (i * avail + p.length) = D ++ p := by
      rw [List.append_assoc, ← hD, List.take_append, List.take_left]
    rw [hfinal]
    simp
  | cons he hdec hp hbi ih =>
    rename_i e p es' ps'
    intro i D g hD hDg
    have hmul : i * avail ≤ i * bs := Nat.mul_le_mul_left i hba
    have hsucc : (i + 1) * bs = i * bs + bs := Nat.succ_mul i bs
    have hsucca : (i + 1) * avail = i * avail + avail := Nat.succ_mul i avail
    have hDg' : (D ++ g).length = i * bs := by
      rw [List.length_append]; omega
    have hflat : ((e :: es') : List (List Nat)).flatten = e ++ es'.flatten := by simp
    rw [hflat]
    have hassoc : D ++ g ++ (e ++ es'.flatten) = (D ++ g ++ e) ++ es'.flatten := by
      simp [List.append_assoc]
    rw [hassoc]
    have hDge : (D ++ g ++ e).length = i * bs + bs := by
      rw [List.length_append, hDg', he]
    have hslice : slice? ((D ++ g ++ e) ++ es'.flatten) (i * bs) ((i + 1) * bs) =
        some e := by
      unfold slice?
      rw [if_pos]
      · rw [List.drop_append_eq_append_drop, List.drop_left' hDg']
        rw [hsucc, Nat.add_sub_cancel_left]
        rw [show i * bs - (D ++ g ++ e).length = 0 by rw [hDge]; omega]
        rw [List.drop_zero, List.take_left' he]
      · refine ⟨by omega, ?_⟩
        rw [List.length_append, hDge]; omega
    have hwlen : i * avail + p.length ≤ ((D ++ g ++ e) ++ es'.flatten).length := by
      rw [List.length_append, hDge, hp]; omega
    have htake : ((D ++ g ++ e) ++ es'.flatten).take (i * avail) = D := by
      rw [List.append_assoc, List.append_assoc, List.take_append_of_le_length (by omega),
        ← hD, List.take_length]
    have hdrop : ((D ++ g ++ e) ++ es'.flatten).drop (i * avail + p.length) =
        ((D ++ g ++ e).drop (i * avail + p.length)) ++ es'.flatten := by
      rw [List.drop_append_eq_append_drop, hDge, hp,
        show i * avail + avail - (i * bs + bs) = 0 by omega, List.drop_zero]
    have hwrite : writeAt? ((D ++ g ++ e) ++ es'.flatten) (i * avail) p =
        some ((D ++ p ++ (D ++ g ++ e).drop (i * avail + p.length)) ++ es'.flatten) := by
      unfold writeAt?
      rw [if_pos hwlen, htake, hdrop]
      simp [List.append_assoc]
    simp only [List.length_cons, List.range'_succ]
    simp only [decryptGo, hslice, hdec, hwrite]
    have hDp : (D ++ p).length = (i + 1) * avail := by
      rw [List.length_append, hD, hp, hsucca]
    have hgp : (D ++ p).length + ((D ++ g ++ e).drop (i * avail + p.length)).length =
        (i + 1) * bs := by
      rw [hDp, List.length_drop, hDge, hp, hsucca, hsucc]; omega
    have := ih (i + 1) (D ++ p) ((D ++ g ++ e).drop (i * avail + p.length)) hDp hgp
    rw [hp, ← hsucca]
    rw [hp, ← hsucca] at this
    rw [this]
    simp [List.append_assoc]

set_option maxRecDepth 100000 in
/-- Claim C4 (amended): with a 1024-bit RSA key and SHA-256 as the OAEP
hash — so each plaintext block carries key_size − 2·H − 2 = 62 bytes and
each ciphertext block key_size = 128 bytes — Encrypt::encrypt of a
512-byte payload (512 bytes of 0xAA) produces a ciphertext of exactly
ceil(512 / 62) × 128 = 9 × 128 = 1152 bytes, and Decrypt::decrypt_owned
returns the identical 512 bytes; this holds for every single-block
operation with the two properties RSA-OAEP guarantees (128-byte blocks,
decryption inverts encryption), and 1152 ≠ 256. -/
theorem encrypt_then_decrypt_512_with_1024_bit_key
    (encryptBlock : Nat → List Nat → List Nat)
    (decryptBlock : List Nat → Except CryptoError (List Nat))
    (hlen : ∀ i c, c.length ≤ 62 → (encryptBlock i c).length = 128)
    (hinv : ∀ i c, c.length ≤ 62 → decryptBlock (encryptBlock i c) = .ok c)
    (e : Encrypt) (d : Decrypt)
    (he : Encrypt.try_new .Sha256 ⟨1024⟩ = .ok e)
    (hd : Decrypt.try_new .Sha256 ⟨1024⟩ = .ok d) :
    (e.encrypt encryptBlock (List.replicate 512 170)).length = 9 * 128 ∧
    d.decrypt_owned decryptBlock (e.encrypt encryptBlock (List.replicate 512 170)) =
      .ok (List.replicate 512 170) ∧
    (9 * 128 : Nat) ≠ 2 * 128 := by
  have hee : e = ⟨⟨1024⟩, 128, 62, .Sha256⟩ :=
    (Except.ok.inj (((by decide :
      Encrypt.try_new .Sha256 ⟨1024⟩ = .ok (⟨⟨1024⟩, 128, 62, .Sha256⟩ : Encrypt))).symm.trans
        he)).symm
  have hdd : d = ⟨⟨1024⟩, 128, 62, .Sha256⟩ :=
    (Except.ok.inj (((by decide :
      Decrypt.try_new .Sha256 ⟨1024⟩ = .ok (⟨⟨1024⟩, 128, 62, .Sha256⟩ : Decrypt))).symm.trans
        hd)).symm
  subst hee
  subst hdd
  have h62 : (List.replicate 62 (170 : Nat)).length ≤ 62 :=
    le_of_eq (List.length_replicate ..)
  have h16 : (List.replicate 16 (170 : Nat)).length ≤ 62 := by
    rw [List.length_replicate]
    omega
  have c62 : (List.replicate 62 (170 : Nat)).length = 62 := List.length_replicate ..
  have henc : Encrypt.encrypt ⟨⟨1024⟩, 128, 62, .Sha256⟩ encryptBlock
      (List.replicate 512 170) =
      ([encryptBlock 0 (List.replicate 62 170), encryptBlock 1 (List.replicate 62 170),
        encryptBlock 2 (List.replicate 62 170), encryptBlock 3 (List.replicate 62 170),
        encryptBlock 4 (List.replicate 62 170), encryptBlock 5 (List.replicate 62 170),
        encryptBlock 6 (List.replicate 62 170), encryptBlock 7 (List.replicate 62 170),
        encryptBlock 8 (List.replicate 16 170)] : List (List Nat)).flatten := by
    unfold Encrypt.encrypt
    norm_num
    rw [show List.range 9 = [0, 1, 2, 3, 4, 5, 6, 7, 8] from by decide]
    simp only [List.map_cons, List.map_nil, List.take_replicate, List.drop_replicate]
    norm_num
  have hBI : BlocksInvert decryptBlock 128 62
      [encryptBlock 0 (List.replicate 62 170), encryptBlock 1 (List.replicate 62 170),
       encryptBlock 2 (List.replicate 62 170), encryptBlock 3 (List.replicate 62 170),
       encryptBlock 4 (List.replicate 62 170), encryptBlock 5 (List.replicate 62 170),
       encryptBlock 6 (List.replicate 62 170), encryptBlock 7 (List.replicate 62 170),
       encryptBlock 8 (List.replicate 16 170)]
      [List.replicate 62 170, List.replicate 62 170, List.replicate 62 170,
       List.replicate 62 170, List.replicate 62 170, List.replicate 62 170,
       List.replicate 62 170, List.replicate 62 170, List.replicate 16 170] := by
    refine .cons (hlen 0 _ h62) (hinv 0 _ h62) c62 ?_
    refine .cons (hlen 1 _ h62) (hinv 1 _ h62) c62 ?_
    refine .cons (hlen 2 _ h62) (hinv 2 _ h62) c62 ?_
    refine .cons (hlen 3 _ h62) (hinv 3 _ h62) c62 ?_
    refine .cons (hlen 4 _ h62) (hinv 4 _ h62) c62 ?_
    refine .cons (hlen 5 _ h62) (hinv 5 _ h62) c62 ?_
    refine .cons (hlen 6 _ h62) (hinv 6 _ h62) c62 ?_
    refine .cons (hlen 7 _ h62) (hinv 7 _ h62) c62 ?_
    exact .last (hlen 8 _ h16) (hinv 8 _ h16) h16
  have hflatlen :
      (([encryptBlock 0 (List.replicate 62 170), encryptBlock 1 (List.replicate 62 170),
        encryptBlock 2 (List.replicate 62 170), encryptBlock 3 (List.replicate 62 170),
        encryptBlock 4 (List.replicate 62 170), encryptBlock 5 (List.replicate 62 170),
        encryptBlock 6 (List.replicate 62 170), encryptBlock 7 (List.replicate 62 170),
        encryptBlock 8 (List.replicate 16 170)] : List (List Nat)).flatten).length =
      1152 := by
    simp only [List.flatten_cons, List.flatten_nil, List.append_nil, List.length_append,
      hlen 0 _ h62, hlen 1 _ h62, hlen 2 _ h62, hlen 3 _ h62, hlen 4 _ h62,
      hlen 5 _ h62, hlen 6 _ h62, hlen 7 _ h62, hlen 8 _ h16]
  refine ⟨?_, ?_, by norm_num⟩
  · rw [henc, hflatlen]
  · rw [henc]
    unfold Decrypt.decrypt_owned
    rw [hflatlen]
    norm_num
    rw [List.range_eq_range']
    have hspec := decryptGo_spec (by norm_num) hBI 0 [] [] (by simp) (by simp)
    simp only [List.nil_append, Nat.zero_mul, List.length_cons, List.length_nil,
      List.flatten_cons, List.flatten_nil, List.append_nil] at hspec
    norm_num at hspec
    rw [hspec]

set_option maxRecDepth 100000 in
/-- Witness for C4, instantiating the abstract block cipher with the
concrete mock blocks. -/
theorem encrypt_then_decrypt_512_with_1024_bit_key_witness :
    (Encrypt.encrypt ⟨⟨1024⟩, 128, 62, .Sha256⟩ mockEncryptBlock
        (List.replicate 512 170)).length = 9 * 128 ∧
    Decrypt.decrypt_owned ⟨⟨1024⟩, 128, 62, .Sha256⟩ mockDecryptBlock
        (Encrypt.encrypt ⟨⟨1024⟩, 128, 62, .Sha256⟩ mockEncryptBlock
          (List.replicate 512 170)) = .ok (List.replicate 512 170) :=
  have h := encrypt_then_decrypt_512_with_1024_bit_key mockEncryptBlock mockDecryptBlock
    (fun i c hc => by
      simp [mockEncryptBlock]
      omega)
    (fun i c hc => by
      simp [mockEncryptBlock, mockDecryptBlock, List.take_left])
    ⟨⟨1024⟩, 128, 62, .Sha256⟩ ⟨⟨1024⟩, 128, 62, .Sha256⟩
    (by decide) (by decide)
  ⟨h.1, h.2.1⟩

end Ptls